import Mathlib

/-!
Verification of the `fms` file-indexing core: a shallow embedding of the
SQLite-backed index store (`src/tag_db.rs`), the query engine
(`src/search.rs`) and the record construction of the crawler (`src/indexer.rs`),
together with theorems settling the claims of the specification.

The SQLite database is modelled as explicit lists of rows; each Rust method
that executes SQL is translated statement by statement into a pure function
on that state.  Machine integers are modelled as `Nat`/`Int` (with explicit
twos-complement conversion where Rust casts `u64` to `i64`), `PathBuf` as
`String` (`to_string_lossy` is the identity on valid UTF-8), and fallible
operations return `Except`.
-/

namespace FMS

/-! ### Strings and the SQLite BINARY collation

The default SQLite BINARY collation compares TEXT values by `memcmp` on their
UTF-8 bytes.  Lexicographic order on UTF-8 byte sequences coincides with
lexicographic order on the underlying sequences of Unicode code points, so
we compare character lists. -/

/-- Strict lexicographic order on character lists (SQLite BINARY collation). -/
def charsLt : List Char → List Char → Bool
  | [], [] => false
  | [], _ :: _ => true
  | _ :: _, [] => false
  | a :: as, b :: bs => a < b || (a == b && charsLt as bs)

/-- Strict BINARY-collation order on strings. -/
def strLt (a b : String) : Bool := charsLt a.data b.data

/-- Non-strict BINARY-collation order on strings. -/
def strLe (a b : String) : Bool := !(charsLt b.data a.data)

theorem charsLt_irrefl : ∀ l : List Char, charsLt l l = false := by
  intro l
  induction l with
  | nil => rfl
  | cons a as ih => simp [charsLt, ih]

theorem charsLt_trans : ∀ {a b c : List Char},
    charsLt a b = true → charsLt b c = true → charsLt a c = true := by
  intro a
  induction a with
  | nil =>
    intro b c hab hbc
    cases b with
    | nil => exact absurd hab (by simp [charsLt])
    | cons y ys =>
      cases c with
      | nil => exact absurd hbc (by simp [charsLt])
      | cons z zs => simp [charsLt]
  | cons x xs ih =>
    intro b c hab hbc
    cases b with
    | nil => exact absurd hab (by simp [charsLt])
    | cons y ys =>
      cases c with
      | nil => exact absurd hbc (by simp [charsLt])
      | cons z zs =>
        simp only [charsLt, Bool.or_eq_true, Bool.and_eq_true, beq_iff_eq, decide_eq_true_eq] at hab hbc ⊢
        rcases hab with hxy | ⟨hxy, hab⟩
        · rcases hbc with hyz | ⟨hyz, _⟩
          · exact Or.inl (lt_trans hxy hyz)
          · exact Or.inl (hyz ▸ hxy)
        · rcases hbc with hyz | ⟨hyz, hbc⟩
          · exact Or.inl (hxy.symm ▸ hyz)
          · exact Or.inr ⟨hxy.trans hyz, ih hab hbc⟩

theorem charsLt_connex : ∀ {a b : List Char},
    a ≠ b → charsLt a b = true ∨ charsLt b a = true := by
  intro a
  induction a with
  | nil =>
    intro b hne
    cases b with
    | nil => exact absurd rfl hne
    | cons y ys => exact Or.inl (by simp [charsLt])
  | cons x xs ih =>
    intro b hne
    cases b with
    | nil => exact Or.inr (by simp [charsLt])
    | cons y ys =>
      rcases lt_trichotomy x y with hxy | hxy | hxy
      · exact Or.inl (by simp [charsLt, hxy])
      · subst hxy
        have hne' : xs ≠ ys := fun h => hne (by rw [h])
        rcases ih hne' with h | h
        · exact Or.inl (by simp [charsLt, h])
        · exact Or.inr (by simp [charsLt, h])
      · exact Or.inr (by simp [charsLt, hxy])

theorem charsLt_asymm : ∀ {a b : List Char},
    charsLt a b = true → charsLt b a = false := by
  intro a b hab
  cases hba : charsLt b a with
  | false => rfl
  | true =>
    have h := charsLt_trans hab hba
    rw [charsLt_irrefl] at h
    exact absurd h (by simp)

theorem strLe_total (a b : String) : strLe a b = true ∨ strLe b a = true := by
  by_cases h : a = b
  · subst h
    exact Or.inl (by simp [strLe, charsLt_irrefl])
  · rcases charsLt_connex (fun hd => h (String.ext hd)) with hlt | hlt
    · exact Or.inl (by simp [strLe, charsLt_asymm hlt])
    · exact Or.inr (by simp [strLe, charsLt_asymm hlt])

theorem strLe_trans {a b c : String} (hab : strLe a b = true) (hbc : strLe b c = true) :
    strLe a c = true := by
  simp only [strLe, Bool.not_eq_true'] at hab hbc ⊢
  cases hca : charsLt c.data a.data with
  | false => rfl
  | true =>
    by_cases hcb : c.data = b.data
    · rw [← hcb] at hab
      rw [hab] at hca
      exact absurd hca (by simp)
    · rcases charsLt_connex hcb with hlt | hlt
      · rw [hlt] at hbc
        exact absurd hbc (by simp)
      · have hba := charsLt_trans hlt hca
        rw [hba] at hab
        exact absurd hab (by simp)

/-! ### The data model (`src/tag_db.rs`)

`PathBuf` is modelled as `String`; `path.to_string_lossy().to_string()` is
the identity on valid UTF-8 paths. -/

/-- Embeds `normalize_path` (tag_db.rs lines 6-12): convert the path to a
string and `pop` the final character when the string `ends_with('/')` and
`len() > 1`.  The Rust `len` counts bytes and `pop` removes the last
character; a string whose last character is `'/'` has byte length `> 1`
iff it has more than one character, so the character-list test used here
agrees with the byte test. -/
def normalize_path (path : String) : String :=
  if path.data.getLast? = some '/' ∧ path.data.length > 1 then
    String.mk path.data.dropLast
  else path

/-- Embeds `FileType` (tag_db.rs). -/
inductive FileType
  | file
  | directory
deriving DecidableEq, Repr

/-- Embeds `FileEntry` (tag_db.rs): the record passed to and returned from
the store.  `size : u64` is a `Nat`, `modified : i64` an `Int`. -/
structure FileEntry where
  path : String
  name : String
  file_type : FileType
  size : Nat
  modified : Int
  parent : Option String
deriving DecidableEq, Repr

/-- Embeds `Tag` (tag_db.rs). -/
structure Tag where
  name : String
  color : Option String
  file_count : Nat
deriving DecidableEq, Repr

/-- One row of the `files` table; `file_type` is stored as TEXT
(`"file"` / `"directory"`), exactly as `insert_file` writes it. -/
structure FileRow where
  path : String
  name : String
  file_type : String
  size : Nat
  modified : Int
  parent : Option String
deriving DecidableEq, Repr

/-- One row of the `tags` table. -/
structure TagRow where
  name : String
  color : Option String
deriving DecidableEq, Repr

/-- The state of the in-memory SQLite database owned by `TagDatabase`:
the `files`, `tags` and `file_tags` tables, plus the content of the
`files_fts` full-text index (a set of `(name, path)` entries). -/
structure DB where
  files : List FileRow
  tags : List TagRow
  file_tags : List (String × String)
  fts : List (String × String)
deriving DecidableEq, Repr

/-- The empty store produced by `TagDatabase::new`. -/
def emptyDB : DB := { files := [], tags := [], file_tags := [], fts := [] }

/-- Errors surfaced by the modelled SQL statements. -/
inductive SqlError
  | upsertOnVirtualTable
deriving DecidableEq, Repr

deriving instance DecidableEq for Except

/-- Embeds `TagDatabase::insert_file` (tag_db.rs lines 103-136), statement
by statement.

First statement: `INSERT OR REPLACE INTO files ...` — SQLite deletes any
row with the same primary key `path` and inserts the new row.

Second statement: `INSERT INTO files_fts (rowid, name, path) VALUES (...)
ON CONFLICT(rowid) DO UPDATE ...` — `files_fts` is an fts5 *virtual*
table, and SQLite rejects the UPSERT clause on virtual tables with the
error "UPSERT not implemented for virtual table".  The statement fails at
prepare time on every call, so the fts content is never touched and
`insert_file` always returns that error after the `files` update has
already been applied (the two statements are not wrapped in a
transaction). -/
def insert_file (db : DB) (entry : FileEntry) : DB × Except SqlError Unit :=
  let p := normalize_path entry.path
  let row : FileRow :=
    { path := p
      name := entry.name
      file_type := match entry.file_type with
        | FileType.file => "file"
        | FileType.directory => "directory"
      size := entry.size
      modified := entry.modified
      parent := entry.parent.map normalize_path }
  let db1 : DB := { db with files := db.files.filter (fun r => r.path != p) ++ [row] }
  (db1, Except.error SqlError.upsertOnVirtualTable)

/-- Embeds `TagDatabase::add_tag_to_file` (tag_db.rs lines 138-152):
`INSERT OR IGNORE INTO tags (name) VALUES (?1)` (keeps an existing row —
and hence its color — untouched on conflict), then
`INSERT OR IGNORE INTO file_tags (file_path, tag_name) VALUES (?1, ?2)`
(the pair is the primary key).  Neither statement checks that a `files`
row exists: the foreign keys of the schema are not enforced because the code
never issues `PRAGMA foreign_keys = ON`, which SQLite requires. -/
def add_tag_to_file (db : DB) (file_path : String) (tag_name : String) :
    DB × Except SqlError Unit :=
  let tags1 :=
    if db.tags.any (fun t => t.name == tag_name) then db.tags
    else db.tags ++ [{ name := tag_name, color := none }]
  let p := normalize_path file_path
  let links1 :=
    if db.file_tags.any (fun l => l.1 == p && l.2 == tag_name) then db.file_tags
    else db.file_tags ++ [(p, tag_name)]
  ({ db with tags := tags1, file_tags := links1 }, Except.ok ())

/-! ### Ordering relations used by the SQL `ORDER BY` clauses -/

/-- The order `ORDER BY name` on `files` rows (BINARY collation). -/
def NameRowLe (a b : FileRow) : Prop := strLe a.name b.name = true

instance : DecidableRel NameRowLe :=
  fun a b => inferInstanceAs (Decidable (strLe a.name b.name = true))

/-- The order `ORDER BY file_type DESC, name` on `files` rows: descending BINARY
order on the TEXT column `file_type`, then ascending on `name`.  Since
`"directory" < "file"` in BINARY collation, the descending direction
places `"file"` rows first. -/
def TypeNameRowLe (a b : FileRow) : Prop :=
  (strLt b.file_type a.file_type ||
    (a.file_type == b.file_type && strLe a.name b.name)) = true

instance : DecidableRel TypeNameRowLe :=
  fun a b => inferInstanceAs (Decidable (_ = true))

/-- The order `ORDER BY t.name` on `tags` rows. -/
def TagRowLe (a b : TagRow) : Prop := strLe a.name b.name = true

instance : DecidableRel TagRowLe :=
  fun a b => inferInstanceAs (Decidable (strLe a.name b.name = true))

instance : IsTotal FileRow NameRowLe := ⟨fun a b => strLe_total a.name b.name⟩

instance : IsTrans FileRow NameRowLe := ⟨fun _ _ _ => strLe_trans⟩

instance : IsTotal TagRow TagRowLe := ⟨fun a b => strLe_total a.name b.name⟩

instance : IsTrans TagRow TagRowLe := ⟨fun _ _ _ => strLe_trans⟩

theorem strLt_of_not_le {a b : String} (h : ¬ strLe a b = true) : strLt b a = true := by
  simp only [strLe, Bool.not_eq_true, Bool.not_eq_false'] at h
  exact h

instance : IsTotal FileRow TypeNameRowLe := by
  refine ⟨fun a b => ?_⟩
  by_cases ht : a.file_type = b.file_type
  · rcases strLe_total a.name b.name with h | h
    · exact Or.inl (by simp [TypeNameRowLe, ht, h])
    · exact Or.inr (by simp [TypeNameRowLe, ht, h])
  · rcases charsLt_connex (fun hd => ht (String.ext hd)) with h | h
    · exact Or.inr (by simp [TypeNameRowLe, strLt, h])
    · exact Or.inl (by simp [TypeNameRowLe, strLt, h])

instance : IsTrans FileRow TypeNameRowLe := by
  refine ⟨fun a b c hab hbc => ?_⟩
  simp only [TypeNameRowLe, Bool.or_eq_true, Bool.and_eq_true, beq_iff_eq, strLt] at hab hbc ⊢
  rcases hab with hab | ⟨hab, hab'⟩
  · rcases hbc with hbc | ⟨hbc, _⟩
    · exact Or.inl (charsLt_trans hbc hab)
    · exact Or.inl (by rw [← hbc]; exact hab)
  · rcases hbc with hbc | ⟨hbc, hbc'⟩
    · exact Or.inl (by rw [hab]; exact hbc)
    · exact Or.inr ⟨hab.trans hbc, strLe_trans hab' hbc'⟩

/-- Parses the stored TEXT `file_type` back into the enum, as every
`query_map` closure does: `"file" => File, "directory" => Directory,
_ => File`. -/
def parseFileType (s : String) : FileType :=
  match s with
  | "file" => FileType.file
  | "directory" => FileType.directory
  | _ => FileType.file

/-- Rebuilds a `FileEntry` from a `files` row, as the `query_map` closures
in tag_db.rs and search.rs do. -/
def rowToEntry (r : FileRow) : FileEntry :=
  { path := r.path
    name := r.name
    file_type := parseFileType r.file_type
    size := r.size
    modified := r.modified
    parent := r.parent }

/-- Embeds `TagDatabase::get_all_tags` (tag_db.rs lines 154-174):
`SELECT t.name, t.color, COUNT(ft.file_path) FROM tags t LEFT JOIN
file_tags ft ON t.name = ft.tag_name GROUP BY t.name, t.color ORDER BY
t.name`.  Since `name` is the primary key of `tags`, each tag row forms
its own group, and the count is the number of `file_tags` rows naming the
tag (zero when the left join finds none, because `COUNT` ignores NULL). -/
def get_all_tags (db : DB) : List Tag :=
  (db.tags.insertionSort TagRowLe).map (fun t =>
    { name := t.name
      color := t.color
      file_count := (db.file_tags.filter (fun l => l.2 == t.name)).length })

/-- Embeds `TagDatabase::get_files_by_tag` (tag_db.rs lines 176-203):
`SELECT f.* FROM files f INNER JOIN file_tags ft ON f.path = ft.file_path
WHERE ft.tag_name = ?1 ORDER BY f.name`.  With `tag_name` fixed, at most
one `file_tags` row can join each `files` row (the pair is the primary
key), so the join is a filter. -/
def get_files_by_tag (db : DB) (tag_name : String) : List FileEntry :=
  ((db.files.filter (fun f =>
      db.file_tags.any (fun l => l.1 == f.path && l.2 == tag_name))).insertionSort
    NameRowLe).map rowToEntry

/-- Embeds `TagDatabase::get_files_in_directory` (tag_db.rs lines
205-231): `SELECT ... FROM files WHERE parent = ?1 ORDER BY file_type
DESC, name` with `?1 = normalize_path(dir_path)`.  A NULL `parent` never
compares equal to the parameter. -/
def get_files_in_directory (db : DB) (dir_path : String) : List FileEntry :=
  ((db.files.filter (fun r =>
      r.parent == some (normalize_path dir_path))).insertionSort
    TypeNameRowLe).map rowToEntry

/-- Embeds `TagDatabase::get_directory` (tag_db.rs lines 233-257):
a `SELECT` from `files` keeping rows whose `path` is the normalized
argument and whose `file_type` column holds `directory`, and
the first row (if any) is rebuilt with `file_type: FileType::Directory`. -/
def get_directory (db : DB) (dir_path : String) : Option FileEntry :=
  (db.files.find? (fun r =>
      r.path == normalize_path dir_path && r.file_type == "directory")).map
    (fun r =>
      { path := r.path
        name := r.name
        file_type := FileType.directory
        size := r.size
        modified := r.modified
        parent := r.parent })

/-! ### The query engine (`src/search.rs`) -/

/-- ASCII lower-casing of one character, the behaviour of the SQLite
`LOWER` function (which folds only A-Z unless the ICU extension is loaded). -/
def asciiLower (c : Char) : Char :=
  if 'A' ≤ c ∧ c ≤ 'Z' then Char.ofNat (c.toNat + 32) else c

/-- ASCII lower-casing of a string. -/
def lowerStr (s : String) : String := String.mk (s.data.map asciiLower)

/-- Tries a predicate on every suffix of the text (the scan performed by
a `'%'` wildcard): `likeScan f t = f t || f t.tail || ... || f []`. -/
def likeScan (f : List Char → Bool) : List Char → Bool
  | [] => f []
  | c :: ts => f (c :: ts) || likeScan f ts

/-- SQL `LIKE` pattern matching against a whole text: `'%'` matches any
(possibly empty) sequence of characters, `'_'` matches exactly one
character, anything else matches itself.  The embedding applies it to
operands already passed through `LOWER`, which makes the built-in ASCII
case folding of the SQLite `LIKE` operator a no-op, so characters are compared
exactly here. -/
def likeMatch : List Char → List Char → Bool
  | [], t => t.isEmpty
  | p :: ps, t =>
    if p = '%' then likeScan (likeMatch ps) t
    else
      match t with
      | [] => false
      | c :: ts => (if p = '_' then true else p == c) && likeMatch ps ts

/-- The WHERE clause shared by `search` and `search_in_directory`:
`LOWER(name) LIKE LOWER(?1) OR LOWER(path) LIKE LOWER(?1)` with
`?1 = format!("%{}%", query)`. -/
def matchesQuery (query : String) (r : FileRow) : Bool :=
  let pat := (lowerStr ("%" ++ query ++ "%")).data
  likeMatch pat (lowerStr r.name).data || likeMatch pat (lowerStr r.path).data

/-- Embeds `SearchEngine::search` (search.rs lines 16-49): an empty query
returns `[]`; otherwise `SELECT DISTINCT ... FROM files WHERE LOWER(name)
LIKE LOWER(?1) OR LOWER(path) LIKE LOWER(?1) ORDER BY name LIMIT 1000`. -/
def search (db : DB) (query : String) : List FileEntry :=
  if query = "" then []
  else
    ((((db.files.filter (matchesQuery query)).dedup).insertionSort
        NameRowLe).take 1000).map rowToEntry

/-- Embeds `SearchEngine::search_in_directory` (search.rs lines 51-84):
an empty query delegates to `get_files_in_directory`; otherwise
`SELECT ... FROM files WHERE parent = ?1 AND (LOWER(name) LIKE LOWER(?2)
OR LOWER(path) LIKE LOWER(?2)) ORDER BY file_type DESC, name LIMIT
1000`. -/
def search_in_directory (db : DB) (dir_path : String) (query : String) :
    List FileEntry :=
  if query = "" then get_files_in_directory db dir_path
  else
    (((db.files.filter (fun r =>
          r.parent == some (normalize_path dir_path) && matchesQuery query r)).insertionSort
        TypeNameRowLe).take 1000).map rowToEntry

/-- Whether the first character list is a leading segment of the second. -/
def startsWithChars : List Char → List Char → Bool
  | [], _ => true
  | _ :: _, [] => false
  | a :: as, b :: bs => a == b && startsWithChars as bs

/-- Whether the first character list occurs contiguously inside the
second (Rust `str::contains` with a string needle). -/
def containsChars : List Char → List Char → Bool
  | q, [] => q.isEmpty
  | q, s@(_ :: ts) => startsWithChars q s || containsChars q ts

/-- Case-insensitive substring test, modelling
`haystack.to_lowercase().contains(&needle.to_lowercase())`.  Rust
`to_lowercase` is Unicode-aware; it is modelled by ASCII folding, with
which it agrees on ASCII text (no claim concerns non-ASCII case
folding). -/
def substrCI (needle haystack : String) : Bool :=
  containsChars (lowerStr needle).data (lowerStr haystack).data

/-- Embeds `SearchEngine::search_by_tag` (search.rs lines 86-98): start
from `get_files_by_tag`, then, when the query is non-empty, retain in
memory the entries whose lower-cased name or path contains the
lower-cased query. -/
def search_by_tag (db : DB) (tag_name : String) (query : String) :
    List FileEntry :=
  let files := get_files_by_tag db tag_name
  if query = "" then files
  else files.filter (fun f => substrCI query f.name || substrCI query f.path)

/-! ### The record construction of the crawler (`src/indexer.rs`)

Filesystem access is abstracted: `std::fs::metadata(path)` becomes a
`Metadata` value given as an argument, and the xattr tag extraction
(`get_macos_tags`, which yields `[]` on any read or decode failure)
becomes the list of decoded tag names given as an argument. -/

/-- Outcome of `metadata.modified()` followed by
`duration_since(UNIX_EPOCH)`: the call can fail, the time can lie before
the epoch, or it yields a number of seconds (a `u64`). -/
inductive ModifiedResult
  | err
  | beforeEpoch
  | secs (n : Nat)
deriving DecidableEq, Repr

/-- The filesystem metadata consumed by `index_file`: `is_dir()`,
`len()` and the modification-time outcome. -/
structure Metadata where
  is_dir : Bool
  len : Nat
  modified : ModifiedResult
deriving DecidableEq, Repr

/-- The Rust `as i64` cast of a `u64` value: twos-complement
reinterpretation. -/
def u64AsI64 (n : Nat) : Int :=
  if n % 2 ^ 64 < 2 ^ 63 then ((n % 2 ^ 64 : Nat) : Int)
  else ((n % 2 ^ 64 : Nat) : Int) - 2 ^ 64

/-- The `modified` field computed by `index_file` (indexer.rs lines
76-88): seconds since the epoch cast `as i64`, and `0` when the
timestamp is unreadable or precedes the epoch (both logged). -/
def modifiedOf : ModifiedResult → Int
  | ModifiedResult.err => 0
  | ModifiedResult.beforeEpoch => 0
  | ModifiedResult.secs n => u64AsI64 n

/-- Splits a character list at every `'/'` (an empty input yields one
empty component, like Rust/Lean string splitting). -/
def splitSlash : List Char → List (List Char)
  | [] => [[]]
  | c :: cs =>
    if c = '/' then [] :: splitSlash cs
    else
      match splitSlash cs with
      | [] => [[c]]
      | p :: ps => (c :: p) :: ps

/-- Joins components back with `'/'` separators. -/
def joinSlash : List (List Char) → List Char
  | [] => []
  | [x] => x
  | x :: xs => x ++ '/' :: joinSlash xs

/-- Last component of a slash-separated path, modelling
`path.file_name().and_then(|n| n.to_str()).unwrap_or("")` for ordinary
paths (no trailing separator, not `..`-terminated). -/
def fileNameOf (p : String) : String := String.mk ((splitSlash p.data).getLastD [])

/-- Containing directory of a slash-separated path, modelling
`path.parent().map(|p| p.to_path_buf())` for ordinary absolute paths:
the root has no parent, the parent of a top-level entry is the root,
otherwise drop the last component. -/
def parentOf (p : String) : Option String :=
  if p = "/" ∨ p = "" then none
  else
    match (splitSlash p.data).dropLast with
    | [] => none
    | [[]] => some "/"
    | cs => some (String.mk (joinSlash cs))

/-- The `FileEntry` built by `FileIndexer::index_file` (indexer.rs lines
61-99) from a path and its filesystem metadata: kind from `is_dir()`,
`size` from `metadata.len()` unconditionally, `modified` best-effort. -/
def indexEntryOf (path : String) (m : Metadata) : FileEntry :=
  { path := path
    name := fileNameOf path
    file_type := if m.is_dir then FileType.directory else FileType.file
    size := m.len
    modified := modifiedOf m.modified
    parent := parentOf path }

/-- The call `add_tag_to_file` applied to each extracted tag in order, stopping at
the first error, as the `?` in the `for` loop of `index_file` does. -/
def attachAll (db : DB) (path : String) : List String → DB × Except SqlError Unit
  | [] => (db, Except.ok ())
  | t :: ts =>
    match add_tag_to_file db path t with
    | (db1, Except.ok _) => attachAll db1 path ts
    | (db1, Except.error e) => (db1, Except.error e)

/-- Embeds `FileIndexer::index_file` (indexer.rs lines 61-111):
build the entry, `insert_file` it (propagating its error with `?`), then
attach every extracted tag. -/
def index_file (db : DB) (path : String) (m : Metadata) (xtags : List String) :
    DB × Except SqlError Unit :=
  match insert_file db (indexEntryOf path m) with
  | (db1, Except.error e) => (db1, Except.error e)
  | (db1, Except.ok _) => attachAll db1 path xtags

/-! ### Reachability invariant used by the ordering theorems -/

/-- The `file_type` column only ever holds the two strings `insert_file`
writes. -/
def FileRow.goodType (r : FileRow) : Prop :=
  r.file_type = "file" ∨ r.file_type = "directory"

/-- Every row of the `files` table has a well-formed `file_type`; this
holds in every state the code can reach, since `insert_file` is the only
writer. -/
def DB.wf (db : DB) : Prop := ∀ r ∈ db.files, r.goodType

instance (db : DB) : Decidable db.wf :=
  inferInstanceAs (Decidable (∀ r ∈ db.files, r.file_type = "file" ∨ r.file_type = "directory"))

/-- Position of a kind in the order the store actually produces:
File records first, Directory records second. -/
def kindRank : FileType → Nat
  | FileType.file => 0
  | FileType.directory => 1

/-- The order in which directory listings actually come back: all
File-kind entries before all Directory-kind entries, and by name
ascending (BINARY collation) within each kind group. -/
def EntryTypeNameLe (a b : FileEntry) : Prop :=
  kindRank a.file_type < kindRank b.file_type ∨
    (a.file_type = b.file_type ∧ strLe a.name b.name = true)

/-- Ascending name order (BINARY collation) on returned entries. -/
def EntryNameLe (a b : FileEntry) : Prop := strLe a.name b.name = true

/-! ### LIKE patterns without wildcards are substring tests -/

theorem likeScan_isEmpty (t : List Char) :
    likeScan (fun x => x.isEmpty) t = true := by
  induction t with
  | nil => rfl
  | cons c ts ih => simp [likeScan, ih]

theorem likeMatch_lit_concat {p : List Char}
    (hp : ∀ c ∈ p, c ≠ '%' ∧ c ≠ '_') (t : List Char) :
    likeMatch (p ++ ['%']) t = startsWithChars p t := by
  induction p generalizing t with
  | nil =>
    show likeMatch ['%'] t = startsWithChars [] t
    simp [likeMatch, startsWithChars, likeScan_isEmpty]
  | cons a as ih =>
    have ha := hp a (List.mem_cons_self a as)
    have has : ∀ c ∈ as, c ≠ '%' ∧ c ≠ '_' :=
      fun c hc => hp c (List.mem_cons_of_mem a hc)
    cases t with
    | nil => simp [likeMatch, startsWithChars, ha.1]
    | cons d ts => simp [likeMatch, startsWithChars, ha.1, ha.2, ih has]

theorem likeScan_lit_concat {p : List Char}
    (hp : ∀ c ∈ p, c ≠ '%' ∧ c ≠ '_') (t : List Char) :
    likeScan (likeMatch (p ++ ['%'])) t = containsChars p t := by
  induction t with
  | nil =>
    show likeMatch (p ++ ['%']) [] = containsChars p []
    rw [likeMatch_lit_concat hp]
    cases p <;> rfl
  | cons c ts ih =>
    show (likeMatch (p ++ ['%']) (c :: ts) || likeScan (likeMatch (p ++ ['%'])) ts) =
      containsChars p (c :: ts)
    rw [likeMatch_lit_concat hp, ih]
    rfl

theorem likeMatch_wrapped {p : List Char}
    (hp : ∀ c ∈ p, c ≠ '%' ∧ c ≠ '_') (t : List Char) :
    likeMatch ('%' :: (p ++ ['%'])) t = containsChars p t := by
  have h : likeMatch ('%' :: (p ++ ['%'])) t = likeScan (likeMatch (p ++ ['%'])) t := by
    simp [likeMatch]
  rw [h, likeScan_lit_concat hp]

/-- On a query free of SQL wildcards, the WHERE clause of `search` and
`search_in_directory` is exactly the case-insensitive substring test
used by `search_by_tag`. -/
theorem matchesQuery_eq_substrCI {q : String}
    (hq : ∀ c ∈ (lowerStr q).data, c ≠ '%' ∧ c ≠ '_') (r : FileRow) :
    matchesQuery q r = (substrCI q r.name || substrCI q r.path) := by
  have hpct : asciiLower '%' = '%' := by decide
  have hpat : (lowerStr ("%" ++ q ++ "%")).data = '%' :: ((lowerStr q).data ++ ['%']) := by
    show (("%" ++ q ++ "%").data.map asciiLower) = '%' :: (q.data.map asciiLower ++ ['%'])
    rw [String.data_append, String.data_append]
    show ((['%'] ++ q.data ++ ['%']).map asciiLower) = _
    simp [hpct]
  simp only [matchesQuery, hpat]
  rw [likeMatch_wrapped hq, likeMatch_wrapped hq]
  rfl

/-! ### Transferring row-level sortedness to the returned entries -/

theorem sorted_nameRow_map {l : List FileRow} (h : l.Sorted NameRowLe) :
    (l.map rowToEntry).Sorted EntryNameLe := by
  rw [List.Sorted, List.pairwise_map]
  exact h.imp (fun hab => hab)

theorem sorted_typeName_map {l : List FileRow} (hg : ∀ r ∈ l, r.goodType)
    (h : l.Sorted TypeNameRowLe) : (l.map rowToEntry).Sorted EntryTypeNameLe := by
  have sff : strLt "file" "file" = false := by decide
  have sdd : strLt "directory" "directory" = false := by decide
  have sfd : strLt "file" "directory" = false := by decide
  rw [List.Sorted, List.pairwise_map]
  refine h.imp_of_mem ?_
  intro a b ha hb hab
  rcases hg a ha with h1 | h1 <;> rcases hg b hb with h2 | h2
  · simp only [TypeNameRowLe, h1, h2, sff, Bool.false_or, beq_self_eq_true,
      Bool.true_and] at hab
    simp only [EntryTypeNameLe, rowToEntry, parseFileType, h1, h2]
    exact Or.inr ⟨by trivial, hab⟩
  · simp only [EntryTypeNameLe, rowToEntry, parseFileType, h1, h2, kindRank]
    exact Or.inl (by omega)
  · simp only [TypeNameRowLe, h1, h2, sfd, Bool.false_or, Bool.and_eq_true,
      beq_iff_eq] at hab
    exact absurd hab.1 (by decide)
  · simp only [TypeNameRowLe, h1, h2, sdd, Bool.false_or, beq_self_eq_true,
      Bool.true_and] at hab
    simp only [EntryTypeNameLe, rowToEntry, parseFileType, h1, h2]
    exact Or.inr ⟨by trivial, hab⟩

theorem sorted_take {α : Type} {R : α → α → Prop} {l : List α} (h : l.Sorted R)
    (n : Nat) : (l.take n).Sorted R :=
  List.Pairwise.sublist (List.take_sublist n l) h

/-! ### Concrete states used by counterexamples and witnesses -/

/-- A typical entry handed to `insert_file`. -/
def xEntry : FileEntry :=
  { path := "/home/a/x.txt"
    name := "x.txt"
    file_type := FileType.file
    size := 3
    modified := 7
    parent := some "/home/a" }

/-- The same path re-observed with different metadata. -/
def xEntry2 : FileEntry :=
  { path := "/home/a/x.txt"
    name := "x.txt"
    file_type := FileType.file
    size := 9
    modified := 8
    parent := some "/home/a" }

/-- A directory `/d` holding one subdirectory `"a"` and one file
`"b.txt"` (the directory-ordering example of the spec). -/
def dirDB : DB :=
  { files := [
      { path := "/d/a", name := "a", file_type := "directory", size := 0,
        modified := 0, parent := some "/d" },
      { path := "/d/b.txt", name := "b.txt", file_type := "file", size := 1,
        modified := 0, parent := some "/d" }]
    tags := []
    file_tags := []
    fts := [] }

/-! ### C2 — `insert_file` and the text index -/

/-- C2: the claim states that calling `insert_file` twice for the same
path leaves exactly one `files` row (which holds) and exactly one
`files_fts` entry.  In fact the fts statement is an UPSERT against a
virtual table, which SQLite rejects, so every call returns an error and
the text index never receives any entry; the files row alone is written,
and re-observing the path is last-write-wins on it. -/
theorem c2_upsert_text_index_bug :
    (insert_file emptyDB xEntry).2 = Except.error SqlError.upsertOnVirtualTable ∧
    (insert_file (insert_file emptyDB xEntry).1 xEntry).2 =
      Except.error SqlError.upsertOnVirtualTable ∧
    (insert_file (insert_file emptyDB xEntry).1 xEntry).1.files.map FileRow.path =
      ["/home/a/x.txt"] ∧
    (insert_file (insert_file emptyDB xEntry).1 xEntry).1.fts = [] ∧
    (insert_file (insert_file emptyDB xEntry).1 xEntry2).1.files.map
      (fun r => (r.path, r.size, r.modified)) = [("/home/a/x.txt", 9, (8 : Int))] := by
  decide

/-! ### C3 — atomicity of `insert_file` -/

/-- C3: the claim states that a failing `insert_file` leaves no partial
update observable.  The two statements of `insert_file` are not wrapped
in a transaction: the fts statement fails on every call (UPSERT on a
virtual table), the call returns an error, and yet the `files` row has
already been written — a partial update is observable. -/
theorem c3_partial_update_observable :
    (insert_file emptyDB xEntry).2 = Except.error SqlError.upsertOnVirtualTable ∧
    (insert_file emptyDB xEntry).1.files.map FileRow.path = ["/home/a/x.txt"] ∧
    (insert_file emptyDB xEntry).1.fts = [] ∧
    (insert_file emptyDB xEntry).1 ≠ emptyDB := by
  decide

/-! ### C4 — path normalization -/

/-- C4 counterexample: the claim states that `normalize_path` never
leaves a trailing separator except on the root path, but only one
trailing `'/'` is popped: `"/home/a//"` normalizes to `"/home/a/"`,
which still ends in a separator and is not the root. -/
theorem c4_counterexample :
    normalize_path "/home/a//" = "/home/a/" ∧
    (normalize_path "/home/a//").data.getLast? = some '/' ∧
    normalize_path "/home/a//" ≠ "/" := by
  decide

/-- C4 amended: `normalize_path` strips exactly one trailing separator
(when the path is longer than one character), so every input with at
most one trailing `'/'` is canonical afterwards — no trailing separator
except for the root — and the examples of the spec hold as stated. -/
theorem c4_normalize_amended :
    (∀ q : String, q.data ≠ [] → q.data.getLast? ≠ some '/' →
      normalize_path (String.mk (q.data ++ ['/'])) = q ∧
      (normalize_path (String.mk (q.data ++ ['/']))).data.getLast? ≠ some '/' ∧
      normalize_path q = q) ∧
    normalize_path "/home/a/" = "/home/a" ∧
    normalize_path "/home/a" = "/home/a" ∧
    normalize_path "/" = "/" := by
  refine ⟨?_, by decide, by decide, by decide⟩
  intro q hne hsl
  have hlast : (q.data ++ ['/']).getLast? = some '/' := List.getLast?_concat q.data
  have hlen : (q.data ++ ['/']).length > 1 := by
    have h1 : (q.data ++ ['/']).length = q.data.length + 1 := by simp
    have h2 : 0 < q.data.length := List.length_pos.mpr hne
    omega
  have hnorm : normalize_path (String.mk (q.data ++ ['/'])) = q := by
    show (if _ then _ else _) = q
    rw [if_pos ⟨hlast, hlen⟩, List.dropLast_concat]
  refine ⟨hnorm, ?_, ?_⟩
  · rw [hnorm]
    exact hsl
  · show (if _ then _ else _) = q
    rw [if_neg]
    intro h
    exact hsl h.1

/-- C4 witness: the amended theorem instantiated at `"/home/a"`. -/
theorem c4_witness :
    normalize_path (String.mk (("/home/a").data ++ ['/'])) = "/home/a" :=
  (c4_normalize_amended.1 "/home/a" (by decide) (by decide)).1

/-! ### C5 — idempotence of `add_tag_to_file` -/

/-- C5: `add_tag_to_file` is idempotent — the second call leaves the
state unchanged — existing tag rows (hence their colors) are preserved,
the tag is created if absent, and tagging a single file from the empty
store yields `file_count = 1`, not 2. -/
theorem c5_attach_tag_idempotent (db : DB) (p t : String) :
    (add_tag_to_file (add_tag_to_file db p t).1 p t).1 = (add_tag_to_file db p t).1 ∧
    db.tags ⊆ (add_tag_to_file db p t).1.tags ∧
    (∃ row, row ∈ (add_tag_to_file db p t).1.tags ∧ row.name = t) ∧
    (get_all_tags (add_tag_to_file (add_tag_to_file emptyDB p t).1 p t).1).map
      (fun tg => (tg.name, tg.file_count)) = [(t, 1)] := by
  refine ⟨?_, ?_, ?_, ?_⟩
  · by_cases hA : db.tags.any (fun tg => tg.name == t) <;>
      by_cases hL : db.file_tags.any
        (fun l => l.1 == normalize_path p && l.2 == t) <;>
      simp [add_tag_to_file, hA, hL, List.any_append]
  · by_cases hA : db.tags.any (fun tg => tg.name == t) <;>
      simp [add_tag_to_file, hA, List.subset_append_left]
  · by_cases hA : db.tags.any (fun tg => tg.name == t)
    · rcases List.any_eq_true.mp hA with ⟨row, hrow, hname⟩
      refine ⟨row, ?_, by simpa using hname⟩
      show row ∈ (if (db.tags.any (fun tg => tg.name == t)) = true then db.tags
        else db.tags ++ [{ name := t, color := none }])
      rw [if_pos hA]
      exact hrow
    · refine ⟨{ name := t, color := none }, ?_, rfl⟩
      show _ ∈ (if (db.tags.any (fun tg => tg.name == t)) = true then db.tags
        else db.tags ++ [{ name := t, color := none }])
      rw [if_neg hA]
      exact List.mem_append_right _ (by simp)
  · simp [add_tag_to_file, emptyDB, get_all_tags, List.insertionSort,
      List.orderedInsert]

/-- C5 witness: the idempotence theorem instantiated at a concrete path
and tag. -/
theorem c5_witness :
    (add_tag_to_file (add_tag_to_file emptyDB "/a" "red").1 "/a" "red").1 =
      (add_tag_to_file emptyDB "/a" "red").1 :=
  (c5_attach_tag_idempotent emptyDB "/a" "red").1

/-! ### C8 — crawler metadata mapping -/

/-- Metadata of a typical on-disk directory: `fs::metadata::len()`
reports the byte size of the directory itself (4096 on ext4), not zero. -/
def dirMeta : Metadata :=
  { is_dir := true, len := 4096, modified := ModifiedResult.secs 100 }

/-- C8 counterexample: the claim states every Directory-kind record has
`size == 0`, but `index_file` stores `metadata.len()` unconditionally:
a directory whose metadata reports 4096 bytes is recorded with
`size = 4096`. -/
theorem c8_counterexample :
    (indexEntryOf "/home/a/sub" dirMeta).file_type = FileType.directory ∧
    (indexEntryOf "/home/a/sub" dirMeta).size = 4096 ∧
    (index_file emptyDB "/home/a/sub" dirMeta []).1.files.map
      (fun r => (r.file_type, r.size)) = [("directory", 4096)] := by
  decide

/-- C8 amended: the record built by the crawler carries
`size = metadata.len()` for directories as well as files (no zeroing),
and `modified` is the epoch-seconds value with `0` substituted when the
timestamp is unreadable or precedes the epoch; the row written to the
store carries the same values. -/
theorem c8_size_modified_amended (p : String) (m : Metadata) (db : DB) :
    (indexEntryOf p m).size = m.len ∧
    ((indexEntryOf p m).file_type = FileType.directory ↔ m.is_dir = true) ∧
    (m.modified = ModifiedResult.err → (indexEntryOf p m).modified = 0) ∧
    (m.modified = ModifiedResult.beforeEpoch → (indexEntryOf p m).modified = 0) ∧
    (∀ n, m.modified = ModifiedResult.secs n →
      (indexEntryOf p m).modified = u64AsI64 n) ∧
    (index_file db p m []).1.files.getLast?.map (fun r => (r.size, r.file_type)) =
      some (m.len, if m.is_dir then "directory" else "file") := by
  refine ⟨rfl, ?_, ?_, ?_, ?_, ?_⟩
  · cases h : m.is_dir <;> simp [indexEntryOf, h]
  · intro h
    simp [indexEntryOf, modifiedOf, h]
  · intro h
    simp [indexEntryOf, modifiedOf, h]
  · intro n h
    simp [indexEntryOf, modifiedOf, h]
  · cases h : m.is_dir <;>
      simp [index_file, insert_file, indexEntryOf, h, List.getLast?_concat]

/-- C8 witness: the amended theorem instantiated on a plain file with an
unreadable timestamp. -/
theorem c8_witness :
    (indexEntryOf "/x" { is_dir := false, len := 7, modified := ModifiedResult.err }).size = 7 ∧
    (indexEntryOf "/x" { is_dir := false, len := 7, modified := ModifiedResult.err }).modified = 0 :=
  ⟨(c8_size_modified_amended "/x"
      { is_dir := false, len := 7, modified := ModifiedResult.err } emptyDB).1,
    (c8_size_modified_amended "/x"
      { is_dir := false, len := 7, modified := ModifiedResult.err } emptyDB).2.2.1 rfl⟩

/-! ### C9 — no query reads the text index -/

/-- C9: every query operation reads only the `files`, `tags` and
`file_tags` relations; two states that differ only in the `files_fts`
content are indistinguishable to all of them. -/
theorem c9_queries_ignore_fts (db : DB) (fts' : List (String × String))
    (q d t : String) :
    search { db with fts := fts' } q = search db q ∧
    search_in_directory { db with fts := fts' } d q = search_in_directory db d q ∧
    search_by_tag { db with fts := fts' } t q = search_by_tag db t q ∧
    get_files_in_directory { db with fts := fts' } d = get_files_in_directory db d ∧
    get_files_by_tag { db with fts := fts' } t = get_files_by_tag db t ∧
    get_all_tags { db with fts := fts' } = get_all_tags db ∧
    get_directory { db with fts := fts' } d = get_directory db d :=
  ⟨rfl, rfl, rfl, rfl, rfl, rfl, rfl⟩

/-! ### C10 — dangling tag links -/

/-- C10: foreign keys are not enforced, so `add_tag_to_file` on a path
with no `files` row succeeds, creates the tag and the link, the dangling
link is counted by `get_all_tags` (`file_count = 1`), and yet
`get_files_by_tag` (an inner join with `files`) returns nothing —
`file_count` exceeds the number of files returned. -/
theorem c10_dangling_link_counted :
    (add_tag_to_file emptyDB "/ghost" "red").2 = Except.ok () ∧
    (get_all_tags (add_tag_to_file emptyDB "/ghost" "red").1).map
      (fun t => (t.name, t.file_count)) = [("red", 1)] ∧
    get_files_by_tag (add_tag_to_file emptyDB "/ghost" "red").1 "red" = [] ∧
    (get_files_by_tag (add_tag_to_file emptyDB "/ghost" "red").1 "red").length < 1 := by
  decide

/-! ### C1 — directory listing order -/

/-- C1 counterexample: the claim states Directory-kind records come
before File-kind records.  On the example given by the spec (directory `"a"`
and file `"b.txt"` under `/d`) both `get_files_in_directory` and
`search_in_directory` return the file first: `ORDER BY file_type DESC`
on the TEXT values puts `"file" > "directory"` first. -/
theorem c1_counterexample :
    (get_files_in_directory dirDB "/d").map (fun e => (e.name, e.file_type)) =
      [("b.txt", FileType.file), ("a", FileType.directory)] ∧
    (get_files_in_directory dirDB "/d").map (fun e => e.file_type) ≠
      [FileType.directory, FileType.file] ∧
    (search_in_directory dirDB "/d" "d").map (fun e => (e.name, e.file_type)) =
      [("b.txt", FileType.file), ("a", FileType.directory)] := by
  decide

/-- C1 amended: for every store state (with well-formed `file_type`
column) and every directory path, `get_files_in_directory` returns
exactly the rows whose `parent` equals the normalized path, ordered with
all File-kind records before all Directory-kind records and by name
ascending within each kind group; `search_in_directory` with a non-empty
query returns the same order restricted to the rows matching the query
(exactly those rows whenever they number at most 1000). -/
theorem c1_listing_amended (db : DB) (d : String) (hwf : db.wf) :
    ((get_files_in_directory db d).Perm
        ((db.files.filter (fun r => r.parent == some (normalize_path d))).map rowToEntry) ∧
      (get_files_in_directory db d).Sorted EntryTypeNameLe) ∧
    (∀ q : String, q ≠ "" →
      ((search_in_directory db d q).Sorted EntryTypeNameLe ∧
        ((db.files.filter (fun r =>
            r.parent == some (normalize_path d) && matchesQuery q r)).length ≤ 1000 →
          (search_in_directory db d q).Perm
            ((db.files.filter (fun r =>
                r.parent == some (normalize_path d) && matchesQuery q r)).map
              rowToEntry)))) := by
  have hgood : ∀ (p : FileRow → Bool),
      ∀ r ∈ (db.files.filter p).insertionSort TypeNameRowLe, r.goodType := by
    intro p r hr
    rw [List.mem_insertionSort, List.mem_filter] at hr
    exact hwf r hr.1
  refine ⟨⟨?_, ?_⟩, ?_⟩
  · exact (List.perm_insertionSort TypeNameRowLe _).map rowToEntry
  · exact sorted_typeName_map (hgood _) (List.sorted_insertionSort _ _)
  · intro q hq
    constructor
    · simp only [search_in_directory, if_neg hq]
      exact sorted_typeName_map
        (fun r hr => hgood _ r (List.mem_of_mem_take hr))
        (sorted_take (List.sorted_insertionSort _ _) 1000)
    · intro hcap
      simp only [search_in_directory, if_neg hq]
      rw [List.take_of_length_le
        (by rw [(List.perm_insertionSort TypeNameRowLe _).length_eq]; exact hcap)]
      exact (List.perm_insertionSort TypeNameRowLe _).map rowToEntry

/-- C1 witness: the amended theorem instantiated on the two-entry store. -/
theorem c1_witness :
    (get_files_in_directory dirDB "/d").Sorted EntryTypeNameLe ∧
    (get_files_in_directory dirDB "/d").Perm
      ((dirDB.files.filter
        (fun r => r.parent == some (normalize_path "/d"))).map rowToEntry) :=
  ⟨((c1_listing_amended dirDB "/d" (by decide)).1).2,
    ((c1_listing_amended dirDB "/d" (by decide)).1).1⟩

/-! ### C6 — substring search -/

/-- A row for one indexed file `"/abc"` named `"abc"`. -/
def abcRow : FileRow :=
  { path := "/abc", name := "abc", file_type := "file", size := 1,
    modified := 0, parent := some "/" }

/-- A store holding only that file. -/
def abcDB : DB := { files := [abcRow], tags := [], file_tags := [], fts := [] }

/-- C6 counterexample: the claim states `search` returns exactly the
records containing the query as a plain substring.  But the query is
spliced into a `LIKE` pattern, so `'_'` acts as a single-character
wildcard: searching `"a_c"` returns the file named `"abc"` although
neither its name nor its path contains `"a_c"`. -/
theorem c6_counterexample :
    (search abcDB "a_c").map FileEntry.name = ["abc"] ∧
    substrCI "a_c" "abc" = false ∧
    substrCI "a_c" "/abc" = false := by
  decide

/-- C6 amended: for a non-empty query whose (case-folded) text contains
no SQL wildcard character (`'%'` or `'_'`), `search` returns exactly the
indexed records whose name or path contains the query as a
case-insensitive substring (whenever they number at most 1000), ordered
by name ascending. -/
theorem c6_search_amended (db : DB) (q : String)
    (hq : ∀ c ∈ (lowerStr q).data, c ≠ '%' ∧ c ≠ '_')
    (hne : q ≠ "")
    (hcap : ((db.files.filter (matchesQuery q)).dedup).length ≤ 1000) :
    (∀ e, e ∈ search db q ↔
      ∃ r, r ∈ db.files ∧ (substrCI q r.name || substrCI q r.path) = true ∧
        rowToEntry r = e) ∧
    (search db q).Sorted EntryNameLe := by
  constructor
  · intro e
    simp only [search, if_neg hne]
    rw [List.take_of_length_le
      (by rw [(List.perm_insertionSort NameRowLe _).length_eq]; exact hcap)]
    rw [List.mem_map]
    constructor
    · rintro ⟨r, hr, he⟩
      rw [List.mem_insertionSort, List.mem_dedup, List.mem_filter] at hr
      exact ⟨r, hr.1, by rw [← matchesQuery_eq_substrCI hq]; exact hr.2, he⟩
    · rintro ⟨r, hr, hm, he⟩
      refine ⟨r, ?_, he⟩
      rw [List.mem_insertionSort, List.mem_dedup, List.mem_filter]
      exact ⟨hr, by rw [matchesQuery_eq_substrCI hq]; exact hm⟩
  · simp only [search, if_neg hne]
    exact sorted_nameRow_map (sorted_take (List.sorted_insertionSort _ _) 1000)

/-- The case-insensitivity example row from the spec. -/
def readmeRow : FileRow :=
  { path := "/home/a/ReadMe.TXT", name := "ReadMe.TXT", file_type := "file",
    size := 5, modified := 0, parent := some "/home/a" }

/-- A store holding only the `ReadMe.TXT` row. -/
def readmeDB : DB := { files := [readmeRow], tags := [], file_tags := [], fts := [] }

/-- C6 witness: after indexing `"/home/a/ReadMe.TXT"`, `search("readme")`
returns it — the amended theorem instantiated. -/
theorem c6_witness :
    rowToEntry readmeRow ∈ search readmeDB "readme" :=
  ((c6_search_amended readmeDB "readme" (by decide) (by decide) (by decide)).1
      (rowToEntry readmeRow)).mpr
    ⟨readmeRow, by decide, by decide, rfl⟩

/-! ### C7 — empty query and the 1000-row cap -/

/-- Row `i` of the large store: a file named `"f"` with a distinct path
of `i + 1` characters. -/
def bigRow (i : Nat) : FileRow :=
  { path := String.mk ('/' :: List.replicate i 'a'), name := "f",
    file_type := "file", size := 0, modified := 0, parent := some "/f" }

/-- A store of `n` distinct files, all named `"f"`. -/
def bigDB (n : Nat) : DB :=
  { files := (List.range n).map bigRow, tags := [], file_tags := [], fts := [] }

set_option maxRecDepth 8000 in
/-- C7: `search` never returns more than 1000 rows, an empty query
returns an empty result, and with 1001 indexed files all matching the
query it returns exactly 1000 rows. -/
theorem c7_search_cap :
    (∀ (db : DB) (q : String), (search db q).length ≤ 1000) ∧
    (∀ db : DB, search db "" = []) ∧
    (search (bigDB 1001) "f").length = 1000 := by
  refine ⟨?_, ?_, ?_⟩
  · intro db q
    by_cases hq : q = ""
    · simp [search, hq]
    · simp only [search, if_neg hq, List.length_map]
      exact List.length_take_le 1000 _
  · intro db
    simp [search]
  · have hfil : (bigDB 1001).files.filter (matchesQuery "f") = (bigDB 1001).files := by
      apply List.filter_eq_self.mpr
      intro r hr
      simp only [bigDB] at hr
      rcases List.mem_map.mp hr with ⟨i, _, rfl⟩
      have h1 : likeMatch (lowerStr "%f%").data (lowerStr "f").data = true := by
        decide
      simp only [matchesQuery, bigRow]
      simp [h1]
    have hinj : Function.Injective bigRow := by
      intro i j h
      have hp := congrArg FileRow.path h
      simp only [bigRow] at hp
      have hlen := congrArg (fun s : String => s.data.length) hp
      simp [List.length_replicate] at hlen
      exact hlen
    have hnd : ((List.range 1001).map bigRow).Nodup :=
      (List.nodup_range 1001).map hinj
    have hfiles : (bigDB 1001).files = (List.range 1001).map bigRow := rfl
    have hded : ((bigDB 1001).files.filter (matchesQuery "f")).dedup =
        (bigDB 1001).files := by
      rw [hfil, hfiles]
      exact List.dedup_eq_self.mpr hnd
    have hne : ¬(("f" : String) = "") := by decide
    simp only [search, if_neg hne, List.length_map]
    rw [hded, List.length_take, (List.perm_insertionSort NameRowLe _).length_eq]
    have hlen1001 : (bigDB 1001).files.length = 1001 := by
      rw [hfiles, List.length_map, List.length_range]
    rw [hlen1001]
    omega

end FMS
